import Mathlib

/-
Verification of the AlphaTab player components of the blog repository.

The development shallowly embeds the TypeScript code of
`src/components/react/AlphaTabPlayer.tsx`, `AlphaTabSimplePlayer.tsx`,
`AlphaTabApp.tsx` and their variant copies.  Stateful browser code
(the module-level script loader, the React refs and state setters) is
modelled by explicit state records and step functions; promises are
identified by allocation numbers so that "the same promise" is an
equality of identifiers.  JavaScript numbers are modelled by
`Option Rat` (with `none` for the non-finite values) and JavaScript
strings by Lean strings, with ASCII whitespace trimming.
-/

set_option maxRecDepth 4000

/-! ## The dynamic script loader
Model of `loadAlphaTabRuntime` (AlphaTabPlayer.tsx, module scope) and
`ensureRuntime` (AlphaTabSimplePlayer.tsx, module scope).  Each function
caches a `Promise<void>` in its own module-level variable
(`alphaTabLoader` resp. `runtimePromise`).  Promises are numbered by
`nextPid`; `appended` counts the script elements appended to
`document.head`, and `domScript` records whether a script element with
the CDN url is present in the document. -/

inductive PStatus where
  | pending
  | resolved
  | rejected
deriving DecidableEq, Repr

structure PResult where
  pid : Nat
  status : PStatus
deriving DecidableEq, Repr

structure LoaderSt where
  windowDefined : Bool
  alphaTabGlobal : Bool
  loaderA : Option Nat
  loaderAStatus : PStatus
  loaderB : Option Nat
  loaderBStatus : PStatus
  domScript : Bool
  appended : Nat
  nextPid : Nat
deriving DecidableEq, Repr

/-- Embedding of `loadAlphaTabRuntime` from AlphaTabPlayer.tsx: reject
outside the browser, resolve when `window.alphaTab` already exists,
otherwise create (once) the shared promise whose executor reuses an
existing script element or appends a fresh one. -/
def stepLoadMain (s : LoaderSt) : PResult × LoaderSt :=
  if s.windowDefined = false then
    (⟨s.nextPid, .rejected⟩, { s with nextPid := s.nextPid + 1 })
  else if s.alphaTabGlobal then
    (⟨s.nextPid, .resolved⟩, { s with nextPid := s.nextPid + 1 })
  else
    match s.loaderA with
    | some p => (⟨p, s.loaderAStatus⟩, s)
    | none =>
      if s.domScript && s.alphaTabGlobal then
        (⟨s.nextPid, .resolved⟩,
          { s with loaderA := some s.nextPid, loaderAStatus := .resolved,
                   nextPid := s.nextPid + 1 })
      else if s.domScript then
        (⟨s.nextPid, .pending⟩,
          { s with loaderA := some s.nextPid, loaderAStatus := .pending,
                   nextPid := s.nextPid + 1 })
      else
        (⟨s.nextPid, .pending⟩,
          { s with loaderA := some s.nextPid, loaderAStatus := .pending,
                   nextPid := s.nextPid + 1, domScript := true,
                   appended := s.appended + 1 })

/-- Embedding of `ensureRuntime` from AlphaTabSimplePlayer.tsx.  With
`autoLoad = false` and no runtime present it returns a freshly rejected
promise; otherwise it caches its own shared promise in `runtimePromise`
(field `loaderB`), listening on an existing script element instead of
appending a second one. -/
def stepEnsure (autoLoad : Bool) (s : LoaderSt) : PResult × LoaderSt :=
  if s.windowDefined = false then
    (⟨s.nextPid, .rejected⟩, { s with nextPid := s.nextPid + 1 })
  else if s.alphaTabGlobal then
    (⟨s.nextPid, .resolved⟩, { s with nextPid := s.nextPid + 1 })
  else if autoLoad = false then
    (⟨s.nextPid, .rejected⟩, { s with nextPid := s.nextPid + 1 })
  else
    match s.loaderB with
    | some p => (⟨p, s.loaderBStatus⟩, s)
    | none =>
      if s.domScript then
        (⟨s.nextPid, .pending⟩,
          { s with loaderB := some s.nextPid, loaderBStatus := .pending,
                   nextPid := s.nextPid + 1 })
      else
        (⟨s.nextPid, .pending⟩,
          { s with loaderB := some s.nextPid, loaderBStatus := .pending,
                   nextPid := s.nextPid + 1, domScript := true,
                   appended := s.appended + 1 })

inductive CallKind where
  | loadMain
  | ensure (autoLoad : Bool)
deriving DecidableEq, Repr

def stepCall : CallKind → LoaderSt → PResult × LoaderSt
  | .loadMain, s => stepLoadMain s
  | .ensure a, s => stepEnsure a s

/-- State after a sequence of loader calls. -/
def runState : LoaderSt → List CallKind → LoaderSt
  | s, [] => s
  | s, c :: cs => runState (stepCall c s).2 cs

/-- The promises returned by the calls of kind `k` within a sequence. -/
def resultsFor (k : CallKind) : LoaderSt → List CallKind → List PResult
  | _, [] => []
  | s, c :: cs =>
    if c = k then (stepCall c s).1 :: resultsFor k (stepCall c s).2 cs
    else resultsFor k (stepCall c s).2 cs

/-- A browser tab before any component mounted: window defined, no
runtime, no cached loader promises, no script element. -/
def cleanLoaderSt : LoaderSt :=
  { windowDefined := true, alphaTabGlobal := false,
    loaderA := none, loaderAStatus := .pending,
    loaderB := none, loaderBStatus := .pending,
    domScript := false, appended := 0, nextPid := 0 }

/-! ## Setup effect and error surface
Model of the promise chain of the setup effect of `AlphaTabPlayer`
(AlphaTabPlayer.tsx, lines 426-565) and of the error branch of its JSX
(lines 676-679).  Only the `status` / `errorMessage` state cells are
modelled; the three modelled failures are the script rejection, the
missing `window.alphaTab` global after a successful load, and a
rejection from `loadSourceDescriptor` (for instance a file read). -/

inductive CompStatus where
  | boot
  | loading
  | ready
  | errorState
deriving DecidableEq, Repr

structure CompState where
  status : CompStatus
  errorMessage : String
deriving DecidableEq, Repr

/-- Message of the error rejected by the script `onerror` handler in
`loadAlphaTabRuntime`. -/
def scriptFailMsg : String := "无法加载 alphaTab.js 运行时"

/-- Message of the error thrown when `window.alphaTab` is missing after
the loader promise resolved. -/
def runtimeMissingMsg : String := "alphaTab.js 运行时不可用"

/-- Fallback text of the error box when `errorMessage` is empty. -/
def unknownErrMsg : String := "加载 alphaTab 时出现未知错误。"

/-- The setup effect: set status to loading and clear the message, then
run the runtime load, the global check and the source load, each failure
landing in a catch handler that stores the message and switches the
status to the error state. -/
def setupEffect (runtimeLoad : Except String Unit) (alphaTabPresent : Bool)
    (sourceLoad : Except String Unit) : CompState :=
  let s1 : CompState := { status := .loading, errorMessage := "" }
  match runtimeLoad with
  | .error msg => { s1 with status := .errorState, errorMessage := msg }
  | .ok _ =>
    if alphaTabPresent = false then
      { s1 with status := .errorState, errorMessage := runtimeMissingMsg }
    else
      match sourceLoad with
      | .error msg => { s1 with status := .errorState, errorMessage := msg }
      | .ok _ => s1

/-- The error box of the JSX: rendered exactly when the status is the
error state, showing `errorMessage` or the fallback text. -/
def renderErrorBox (s : CompState) : Option String :=
  if s.status = .errorState then
    some (if s.errorMessage = "" then unknownErrMsg else s.errorMessage)
  else none

/-! ## Loading a source descriptor
Model of `loadSourceDescriptor` (AlphaTabPlayer.tsx, lines 398-424); the
`loadSource` helper of the variant copies has the same switch.  A `File`
is modelled by the result of its awaited `arrayBuffer()` read, and each
call into the library api is recorded. -/

structure FileM where
  readResult : Except String (List Nat)
deriving Repr

inductive SourceDesc where
  | url (value : String)
  | file (value : FileM)
  | arrayBuffer (value : List Nat)
  | alphaTex (value : String)
deriving Repr

inductive ApiLoadCall where
  | loadStr (s : String)
  | loadBuf (b : List Nat)
  | loadTex (s : String)
deriving DecidableEq, Repr

/-- `loadSourceDescriptor`: on a url pass the value to `api.load`; on a
file await `arrayBuffer()` and pass the buffer; on an arrayBuffer pass
the buffer; on alphaTex prefer `api.loadAlphaTex` when the method
exists, else `api.load`.  Without an api instance the function returns
without calling anything. -/
def loadSourceDescriptor (hasApi : Bool) (hasLoadAlphaTex : Bool)
    (d : SourceDesc) : Except String (List ApiLoadCall) :=
  if hasApi = false then .ok []
  else
    match d with
    | .url v => .ok [.loadStr v]
    | .file f =>
      match f.readResult with
      | .ok buf => .ok [.loadBuf buf]
      | .error e => .error e
    | .arrayBuffer b => .ok [.loadBuf b]
    | .alphaTex v =>
      .ok (if hasLoadAlphaTex then [.loadTex v] else [.loadStr v])

/-! ## The loop toggle
Model of `toggleLoop` (AlphaTabPlayer.tsx, lines 586-591; identical in
the variant copies): with an api instance, both `api.isLooping` and the
`isLooping` state become the negation of the current state value. -/

structure LoopState where
  hasApi : Bool
  apiLooping : Bool
  uiLooping : Bool
deriving DecidableEq, Repr

def toggleLoop (s : LoopState) : LoopState :=
  if s.hasApi then
    { s with apiLooping := !s.uiLooping, uiLooping := !s.uiLooping }
  else s

/-! ## Unmount cleanup
Model of the cleanup closure of the setup effect (AlphaTabPlayer.tsx,
lines 556-564, and the shorter form of the variant copies).  Instances
are identified by numbers and the emitted teardown calls recorded. -/

structure MountState where
  api : Option Nat
  score : Option Nat
  runtimeReady : Bool
  isPlayerReady : Bool
  activeTracks : List Nat
deriving DecidableEq, Repr

inductive TeardownCall where
  | destroy (id : Nat)
deriving DecidableEq, Repr

/-- Cleanup of the main player: `apiRef.current?.destroy()`, null both
refs, reset `runtimeReady`, `isPlayerReady` and the active track set. -/
def effectCleanupMain (s : MountState) : MountState × List TeardownCall :=
  ({ api := none, score := none, runtimeReady := false,
     isPlayerReady := false, activeTracks := [] },
   match s.api with
   | some a => [.destroy a]
   | none => [])

/-- Cleanup of the dialog variants: `apiRef.current?.destroy()` and null
the two refs. -/
def effectCleanupDialog (s : MountState) : MountState × List TeardownCall :=
  ({ s with api := none, score := none },
   match s.api with
   | some a => [.destroy a]
   | none => [])

/-! ## The alphaTab document model and `applyScoreColors`
Model of `applyScoreColors` (AlphaTabPlayer.tsx, lines 224-385; the copy
in the first variant file, lines 147-310, is identical).  The library's
enum records (`model.ScoreSubElement` and friends, typed
`Record<string, number>` in the source) are modelled as functions from
names to numbers; `model.Color.fromJson` keeps the color string.  A
style's `colors` map is an insertion-ordered association list with the
`Map.set` update rule. -/

structure ATStyle where
  colors : List (Nat × String)
deriving DecidableEq, Repr

structure ATNote where
  style : Option ATStyle
deriving DecidableEq, Repr

structure ATBeat where
  style : Option ATStyle
  notes : List ATNote
deriving DecidableEq, Repr

structure ATVoice where
  style : Option ATStyle
  beats : List ATBeat
deriving DecidableEq, Repr

structure ATBar where
  style : Option ATStyle
  voices : List ATVoice
deriving DecidableEq, Repr

structure ATStaff where
  bars : List ATBar
deriving DecidableEq, Repr

structure ATTrack where
  index : Nat
  name : Option String
  style : Option ATStyle
  staves : List ATStaff
deriving DecidableEq, Repr

structure ATScore where
  title : Option String
  artist : Option String
  style : Option ATStyle
  tracks : List ATTrack
deriving DecidableEq, Repr

structure ATModel where
  scoreSub : String → Nat
  trackSub : String → Nat
  barSub : String → Nat
  voiceSub : String → Nat
  beatSub : String → Nat
  noteSub : String → Nat

/-- `Map.set`: overwrite the entry in place when the key exists,
otherwise append it. -/
def mapSet (m : List (Nat × String)) (k : Nat) (v : String) :
    List (Nat × String) :=
  if m.any (fun kv => kv.1 = k) then
    m.map (fun kv => if kv.1 = k then (k, v) else kv)
  else m ++ [(k, v)]

/-- A freshly constructed style after a sequence of `colors.set` calls. -/
def styleOfSets (kvs : List (Nat × String)) : ATStyle :=
  { colors := kvs.foldl (fun m kv => mapSet m kv.1 kv.2) [] }

def darkColor : String := "#d1d5db"

def secondaryDarkColor : String := "#9ca3af"

/-- The `colors.set` calls performed on the score style: the three
primary elements, then the eight secondary ones. -/
def scoreKvs (m : ATModel) : List (Nat × String) :=
  [(m.scoreSub "Title", darkColor),
   (m.scoreSub "SubTitle", darkColor),
   (m.scoreSub "ChordDiagramList", darkColor),
   (m.scoreSub "Artist", secondaryDarkColor),
   (m.scoreSub "Album", secondaryDarkColor),
   (m.scoreSub "Words", secondaryDarkColor),
   (m.scoreSub "Music", secondaryDarkColor),
   (m.scoreSub "WordsAndMusic", secondaryDarkColor),
   (m.scoreSub "Transcriber", secondaryDarkColor),
   (m.scoreSub "Copyright", secondaryDarkColor),
   (m.scoreSub "CopyrightSecondLine", secondaryDarkColor)]

def trackKvs (m : ATModel) : List (Nat × String) :=
  [(m.trackSub "TrackName", darkColor),
   (m.trackSub "BracesAndBrackets", darkColor),
   (m.trackSub "SystemSeparator", darkColor),
   (m.trackSub "StringTuning", secondaryDarkColor)]

def barKvs (m : ATModel) : List (Nat × String) :=
  [(m.barSub "StandardNotationRepeats", darkColor),
   (m.barSub "GuitarTabsRepeats", darkColor),
   (m.barSub "SlashRepeats", darkColor),
   (m.barSub "NumberedRepeats", darkColor),
   (m.barSub "StandardNotationBarLines", darkColor),
   (m.barSub "GuitarTabsBarLines", darkColor),
   (m.barSub "SlashBarLines", darkColor),
   (m.barSub "NumberedBarLines", darkColor),
   (m.barSub "StandardNotationClef", darkColor),
   (m.barSub "GuitarTabsClef", darkColor),
   (m.barSub "StandardNotationKeySignature", darkColor),
   (m.barSub "NumberedKeySignature", darkColor),
   (m.barSub "StandardNotationTimeSignature", darkColor),
   (m.barSub "GuitarTabsTimeSignature", darkColor),
   (m.barSub "SlashTimeSignature", darkColor),
   (m.barSub "NumberedTimeSignature", darkColor),
   (m.barSub "StandardNotationStaffLine", darkColor),
   (m.barSub "GuitarTabsStaffLine", darkColor),
   (m.barSub "SlashStaffLine", darkColor),
   (m.barSub "NumberedStaffLine", darkColor),
   (m.barSub "StandardNotationBarNumber", darkColor),
   (m.barSub "GuitarTabsBarNumber", darkColor),
   (m.barSub "SlashBarNumber", darkColor),
   (m.barSub "NumberedBarNumber", darkColor)]

def voiceKvs (m : ATModel) : List (Nat × String) :=
  [(m.voiceSub "Glyphs", darkColor)]

def beatKvs (m : ATModel) : List (Nat × String) :=
  [(m.beatSub "StandardNotationStem", darkColor),
   (m.beatSub "GuitarTabStem", darkColor),
   (m.beatSub "SlashStem", darkColor),
   (m.beatSub "StandardNotationFlags", darkColor),
   (m.beatSub "GuitarTabFlags", darkColor),
   (m.beatSub "SlashFlags", darkColor),
   (m.beatSub "StandardNotationBeams", darkColor),
   (m.beatSub "GuitarTabBeams", darkColor),
   (m.beatSub "SlashBeams", darkColor),
   (m.beatSub "StandardNotationTuplet", darkColor),
   (m.beatSub "GuitarTabTuplet", darkColor),
   (m.beatSub "SlashTuplet", darkColor),
   (m.beatSub "NumberedTuplet", darkColor),
   (m.beatSub "StandardNotationRests", darkColor),
   (m.beatSub "GuitarTabRests", darkColor),
   (m.beatSub "SlashRests", darkColor),
   (m.beatSub "NumberedRests", darkColor),
   (m.beatSub "Effects", darkColor),
   (m.beatSub "StandardNotationEffects", darkColor),
   (m.beatSub "GuitarTabEffects", darkColor),
   (m.beatSub "SlashEffects", darkColor),
   (m.beatSub "NumberedEffects", darkColor),
   (m.beatSub "NumberedDuration", darkColor)]

def noteKvs (m : ATModel) : List (Nat × String) :=
  [(m.noteSub "StandardNotationNoteHead", darkColor),
   (m.noteSub "SlashNoteHead", darkColor),
   (m.noteSub "GuitarTabFretNumber", darkColor),
   (m.noteSub "NumberedNumber", darkColor),
   (m.noteSub "StandardNotationAccidentals", darkColor),
   (m.noteSub "NumberedAccidentals", darkColor),
   (m.noteSub "Effects", darkColor),
   (m.noteSub "StandardNotationEffects", darkColor),
   (m.noteSub "GuitarTabEffects", darkColor),
   (m.noteSub "SlashEffects", darkColor),
   (m.noteSub "NumberedEffects", darkColor)]

/-- `resetColors`, note level: `note.style = null`. -/
def resetNote (n : ATNote) : ATNote := { n with style := none }

def resetBeat (b : ATBeat) : ATBeat :=
  { b with style := none, notes := b.notes.map resetNote }

def resetVoice (v : ATVoice) : ATVoice :=
  { v with style := none, beats := v.beats.map resetBeat }

def resetBar (b : ATBar) : ATBar :=
  { b with style := none, voices := b.voices.map resetVoice }

def resetStaff (st : ATStaff) : ATStaff :=
  { st with bars := st.bars.map resetBar }

def resetTrack (t : ATTrack) : ATTrack :=
  { t with style := none, staves := t.staves.map resetStaff }

/-- The `resetColors` walk of `applyScoreColors`. -/
def resetScore (s : ATScore) : ATScore :=
  { s with style := none, tracks := s.tracks.map resetTrack }

/-- Dark walk, note level: a fresh `NoteStyle` with the note sub-element
colors. -/
def darkNote (m : ATModel) (n : ATNote) : ATNote :=
  { n with style := some (styleOfSets (noteKvs m)) }

def darkBeat (m : ATModel) (b : ATBeat) : ATBeat :=
  { b with style := some (styleOfSets (beatKvs m)),
           notes := b.notes.map (darkNote m) }

def darkVoice (m : ATModel) (v : ATVoice) : ATVoice :=
  { v with style := some (styleOfSets (voiceKvs m)),
           beats := v.beats.map (darkBeat m) }

def darkBar (m : ATModel) (b : ATBar) : ATBar :=
  { b with style := some (styleOfSets (barKvs m)),
           voices := b.voices.map (darkVoice m) }

def darkStaff (m : ATModel) (st : ATStaff) : ATStaff :=
  { st with bars := st.bars.map (darkBar m) }

def darkTrack (m : ATModel) (t : ATTrack) : ATTrack :=
  { t with style := some (styleOfSets (trackKvs m)),
           staves := t.staves.map (darkStaff m) }

def darkScore (m : ATModel) (s : ATScore) : ATScore :=
  { s with style := some (styleOfSets (scoreKvs m)),
           tracks := s.tracks.map (darkTrack m) }

/-- `applyScoreColors` on a non-null score with the runtime model
available: reset every style in light mode, assign the dark styles in
dark mode. -/
def applyScoreColors (m : ATModel) (s : ATScore) (darkMode : Bool) :
    ATScore :=
  if darkMode then darkScore m s else resetScore s

/-- All styles cleared, note level. -/
def noteStylesNone (n : ATNote) : Bool := n.style.isNone

def beatStylesNone (b : ATBeat) : Bool :=
  b.style.isNone && b.notes.all noteStylesNone

def voiceStylesNone (v : ATVoice) : Bool :=
  v.style.isNone && v.beats.all beatStylesNone

def barStylesNone (b : ATBar) : Bool :=
  b.style.isNone && b.voices.all voiceStylesNone

def staffStylesNone (st : ATStaff) : Bool :=
  st.bars.all barStylesNone

def trackStylesNone (t : ATTrack) : Bool :=
  t.style.isNone && t.staves.all staffStylesNone

def scoreStylesNone (s : ATScore) : Bool :=
  s.style.isNone && s.tracks.all trackStylesNone

/-- Every node carries the dark style of its level, note level. -/
def NoteDark (m : ATModel) (n : ATNote) : Prop :=
  n.style = some (ATStyle.mk (noteKvs m))

def BeatDark (m : ATModel) (b : ATBeat) : Prop :=
  b.style = some (ATStyle.mk (beatKvs m)) ∧ ∀ n ∈ b.notes, NoteDark m n

def VoiceDark (m : ATModel) (v : ATVoice) : Prop :=
  v.style = some (ATStyle.mk (voiceKvs m)) ∧ ∀ b ∈ v.beats, BeatDark m b

def BarDark (m : ATModel) (b : ATBar) : Prop :=
  b.style = some (ATStyle.mk (barKvs m)) ∧ ∀ v ∈ b.voices, VoiceDark m v

def StaffDark (m : ATModel) (st : ATStaff) : Prop :=
  ∀ b ∈ st.bars, BarDark m b

def TrackDark (m : ATModel) (t : ATTrack) : Prop :=
  t.style = some (ATStyle.mk (trackKvs m)) ∧ ∀ st ∈ t.staves, StaffDark m st

def ScoreDark (m : ATModel) (s : ATScore) : Prop :=
  s.style = some (ATStyle.mk (scoreKvs m)) ∧ ∀ t ∈ s.tracks, TrackDark m t

/-- The sub-element codes a model uses at each level are pairwise
distinct (true of the actual alphaTab enums). -/
def ModelSeparated (m : ATModel) : Prop :=
  ((scoreKvs m).map Prod.fst).Nodup ∧ ((trackKvs m).map Prod.fst).Nodup ∧
  ((barKvs m).map Prod.fst).Nodup ∧ ((voiceKvs m).map Prod.fst).Nodup ∧
  ((beatKvs m).map Prod.fst).Nodup ∧ ((noteKvs m).map Prod.fst).Nodup

/-! ## Track selection
Model of `handleTrackClick`.  The main player (AlphaTabPlayer.tsx, lines
576-580) renders the clicked track alone and replaces the active set by
a singleton.  The dialog variants (first variant file lines 710-749,
second variant file lines 567-603) toggle membership inside a
`setActiveTracks` updater, guarded so the set cannot be emptied.  The
JavaScript `Set<number>` is modelled by an insertion-ordered duplicate
free list of numbers. -/

structure TrackClickOut where
  active : List Nat
  renders : List (List ATTrack)
deriving DecidableEq, Repr

/-- Main player click: `renderTracks([track])` then
`setActiveTracks(new Set([track.index]))`.  Without an api instance
nothing happens. -/
def handleTrackClickMain (hasApi : Bool) (prev : List Nat) (t : ATTrack) :
    TrackClickOut :=
  if hasApi then { active := [t.index], renders := [[t]] }
  else { active := prev, renders := [] }

/-- Lookup of a track by index: `api.tracks.find(...) ??
scoreRef.current?.tracks?.find(...) ?? null`. -/
def resolveTrack (avail scoreTracks : List ATTrack) (idx : Nat) :
    Option ATTrack :=
  match avail.find? (fun t => t.index = idx) with
  | some t => some t
  | none => scoreTracks.find? (fun t => t.index = idx)

/-- Dialog variant click.  `avail` is `api.tracks`, `scoreTracks` the
tracks of the score ref (empty when the ref is null). -/
def handleTrackClickDialog (avail scoreTracks : List ATTrack)
    (prev : List Nat) (i : Nat) : TrackClickOut :=
  let isActive := prev.contains i
  if isActive && prev.length ≤ 1 then { active := prev, renders := [] }
  else
    let next := if isActive then prev.filter (fun x => x ≠ i)
                else prev ++ [i]
    let resolved := next.filterMap (resolveTrack avail scoreTracks)
    { active := next,
      renders := if resolved.length > 0 then [resolved] else [] }

/-! ## `formatDuration`
Model of `formatDuration` (AlphaTabPlayer.tsx, lines 209-215) and of the
variant copy (second variant file, lines 350-356) that takes the seconds
through the `%` remainder instead of a subtraction.  A JavaScript number
is `Option Rat`: `none` stands for the non-finite values rejected by
`Number.isFinite`. -/

/-- `String.prototype.padStart(2, "0")`. -/
def padStart2 (s : String) : String :=
  if s.length < 2 then String.mk (List.replicate (2 - s.length) '0') ++ s
  else s

/-- Truncation toward zero, as used by the JavaScript `%` operator. -/
def ratTrunc (q : ℚ) : ℤ := if 0 ≤ q then ⌊q⌋ else ⌈q⌉

/-- JavaScript remainder `a % b` (sign of the dividend). -/
def jsRem (a b : ℚ) : ℚ := a - b * (ratTrunc (a / b) : ℚ)

/-- `formatDuration` of the main player. -/
def formatDuration (ms : Option ℚ) : String :=
  match ms with
  | none => "00:00"
  | some q =>
    let seconds0 : ℚ := max (q / 1000) 0
    let minutes : ℤ := ⌊seconds0 / 60⌋
    let seconds : ℤ := ⌊seconds0 - (minutes : ℚ) * 60⌋
    padStart2 (toString minutes) ++ ":" ++ padStart2 (toString seconds)

/-- `formatDuration` of the dialog variant (seconds via `% 60`). -/
def formatDurationDialog (ms : Option ℚ) : String :=
  match ms with
  | none => "00:00"
  | some q =>
    let totalSeconds : ℚ := max (q / 1000) 0
    let minutes : ℤ := ⌊totalSeconds / 60⌋
    let seconds : ℤ := ⌊jsRem totalSeconds 60⌋
    padStart2 (toString minutes) ++ ":" ++ padStart2 (toString seconds)

/-! ## `detectStringSource`
Model of the two string classifiers: the one of
AlphaTabSimplePlayer.tsx (lines 85-96) and the one of AlphaTabApp.tsx
(the third variant file, lines 51-83).  The regular expression tests are
translated character by character; `trim` removes ASCII whitespace from
both ends. -/

def isWsCh (c : Char) : Bool :=
  c = ' ' || c = '\t' || c = '\n' || c = '\r' || c = '\x0b' || c = '\x0c'

def trimList (cs : List Char) : List Char :=
  ((cs.dropWhile isWsCh).reverse.dropWhile isWsCh).reverse

/-- `String.prototype.trim` restricted to ASCII whitespace. -/
def jsTrim (s : String) : String := String.mk (trimList s.data)

/-- Case-insensitive match of a (lowercase) literal at the head,
returning the rest on success. -/
def headMatchCI : List Char → List Char → Option (List Char)
  | [], rest => some rest
  | _ :: _, [] => none
  | p :: ps, c :: cs => if c.toLower = p then headMatchCI ps cs else none

/-- Test `/^https?:\/\//i`. -/
def httpTest (cs : List Char) : Bool :=
  (headMatchCI "http://".data cs).isSome ||
  (headMatchCI "https://".data cs).isSome

/-- The `\w` class of the regexes: ASCII letters, digits, underscore. -/
def isWordChar (c : Char) : Bool := c.isAlpha || c.isDigit || c = '_'

/-- A `\b` word boundary right after a keyword. -/
def boundaryAfter : List Char → Bool
  | [] => true
  | c :: _ => !(isWordChar c)

/-- A backslash followed by one of the keywords and a word boundary,
anchored at the head of the list. -/
def keywordHere (kws : List (List Char)) : List Char → Bool
  | '\\' :: rest =>
    kws.any (fun kw =>
      match headMatchCI kw rest with
      | some tail => boundaryAfter tail
      | none => false)
  | _ => false

/-- The `(^|\n)` alternative: the keyword test right after any newline. -/
def keywordAfterNewline (kws : List (List Char)) : List Char → Bool
  | [] => false
  | c :: rest =>
    (c = '\n' && keywordHere kws rest) || keywordAfterNewline kws rest

/-- Test `/(^|\n)\\(kw1|...)\b/i`. -/
def directiveTest (kws : List (List Char)) (cs : List Char) : Bool :=
  keywordHere kws cs || keywordAfterNewline kws cs

/-- Case-sensitive literal match at the head. -/
def headMatchCS : List Char → List Char → Bool
  | [], _ => true
  | _ :: _, [] => false
  | p :: ps, c :: cs => p = c && headMatchCS ps cs

/-- Test `/\.(alphatex|atx)$/i`. -/
def extTest (cs : List Char) : Bool :=
  headMatchCS ".alphatex".data.reverse (cs.map Char.toLower).reverse ||
  headMatchCS ".atx".data.reverse (cs.map Char.toLower).reverse

def simpleKws : List (List Char) :=
  ["title", "tempo", "track", "staff", "instrument", "ts",
   "articulation", "multibarrest"].map String.data

def appKws : List (List Char) :=
  ["title", "tempo", "ts", "track", "chord", "tuning", "instrument",
   "version"].map String.data

def appStartKws : List (List Char) :=
  ["title", "tempo", "ts", "track", "chord"].map String.data

/-- `detectStringSource` of AlphaTabSimplePlayer.tsx: url on an
`http(s)` head, alphaTex on a directive or any newline, url fallback. -/
def detectStringSourceSimple (raw : String) : SourceDesc :=
  let trimmed := jsTrim raw
  if httpTest trimmed.data then .url trimmed
  else if directiveTest simpleKws trimmed.data || trimmed.data.contains '\n'
  then .alphaTex trimmed
  else .url trimmed

/-- `detectStringSource` of AlphaTabApp.tsx: url on an `http(s)` head,
the `AT:` prefix stripped and trimmed, the `.alphatex`/`.atx` extension,
a directive on a further line of a multi-line string, a directive at the
head even of a single line, then the url fallback. -/
def detectStringSourceApp (raw : String) : SourceDesc :=
  let trimmed := jsTrim raw
  if httpTest trimmed.data then .url trimmed
  else if headMatchCS "AT:".data trimmed.data then
    .alphaTex (jsTrim (String.mk (trimmed.data.drop 3)))
  else if extTest trimmed.data then .alphaTex trimmed
  else if trimmed.data.contains '\n' && directiveTest appKws trimmed.data
  then .alphaTex trimmed
  else if keywordHere appStartKws trimmed.data then .alphaTex trimmed
  else .url trimmed

/-! ## Concrete instances used by the witnesses -/

/-- Read a code from an explicit name-to-number table (default 100 for
names outside the table). -/
def lookupCode (l : List (String × Nat)) (k : String) : Nat :=
  ((l.find? (fun p => p.1 = k)).map Prod.snd).getD 100

/-- A model giving distinct codes to the sub-elements of each level, as
the actual alphaTab enums do. -/
def stdATModel : ATModel :=
  { scoreSub := lookupCode
      [("Title", 0), ("SubTitle", 1), ("ChordDiagramList", 2),
       ("Artist", 3), ("Album", 4), ("Words", 5), ("Music", 6),
       ("WordsAndMusic", 7), ("Transcriber", 8), ("Copyright", 9),
       ("CopyrightSecondLine", 10)],
    trackSub := lookupCode
      [("TrackName", 0), ("BracesAndBrackets", 1), ("SystemSeparator", 2),
       ("StringTuning", 3)],
    barSub := lookupCode
      [("StandardNotationRepeats", 0), ("GuitarTabsRepeats", 1),
       ("SlashRepeats", 2), ("NumberedRepeats", 3),
       ("StandardNotationBarLines", 4), ("GuitarTabsBarLines", 5),
       ("SlashBarLines", 6), ("NumberedBarLines", 7),
       ("StandardNotationClef", 8), ("GuitarTabsClef", 9),
       ("StandardNotationKeySignature", 10), ("NumberedKeySignature", 11),
       ("StandardNotationTimeSignature", 12),
       ("GuitarTabsTimeSignature", 13), ("SlashTimeSignature", 14),
       ("NumberedTimeSignature", 15), ("StandardNotationStaffLine", 16),
       ("GuitarTabsStaffLine", 17), ("SlashStaffLine", 18),
       ("NumberedStaffLine", 19), ("StandardNotationBarNumber", 20),
       ("GuitarTabsBarNumber", 21), ("SlashBarNumber", 22),
       ("NumberedBarNumber", 23)],
    voiceSub := lookupCode [("Glyphs", 0)],
    beatSub := lookupCode
      [("StandardNotationStem", 0), ("GuitarTabStem", 1), ("SlashStem", 2),
       ("StandardNotationFlags", 3), ("GuitarTabFlags", 4),
       ("SlashFlags", 5), ("StandardNotationBeams", 6),
       ("GuitarTabBeams", 7), ("SlashBeams", 8),
       ("StandardNotationTuplet", 9), ("GuitarTabTuplet", 10),
       ("SlashTuplet", 11), ("NumberedTuplet", 12),
       ("StandardNotationRests", 13), ("GuitarTabRests", 14),
       ("SlashRests", 15), ("NumberedRests", 16), ("Effects", 17),
       ("StandardNotationEffects", 18), ("GuitarTabEffects", 19),
       ("SlashEffects", 20), ("NumberedEffects", 21),
       ("NumberedDuration", 22)],
    noteSub := lookupCode
      [("StandardNotationNoteHead", 0), ("SlashNoteHead", 1),
       ("GuitarTabFretNumber", 2), ("NumberedNumber", 3),
       ("StandardNotationAccidentals", 4), ("NumberedAccidentals", 5),
       ("Effects", 6), ("StandardNotationEffects", 7),
       ("GuitarTabEffects", 8), ("SlashEffects", 9),
       ("NumberedEffects", 10)] }

def exNote : ATNote := { style := none }

def exBeat : ATBeat := { style := none, notes := [exNote] }

def exVoice : ATVoice := { style := none, beats := [exBeat] }

def exBar : ATBar := { style := none, voices := [exVoice] }

def exStaff : ATStaff := { bars := [exBar] }

def exTrack : ATTrack :=
  { index := 0, name := some "Guitar", style := none, staves := [exStaff] }

def exScore : ATScore :=
  { title := some "Song", artist := some "Band", style := none,
    tracks := [exTrack] }

def exTrackB : ATTrack :=
  { index := 1, name := none, style := none, staves := [] }

/-- Invariant of the loader state under call sequences made while the
runtime global is still absent: browser window, no runtime, at most one
appended script (none while no script element exists), and cached loader
promises still pending. -/
def LInv (s : LoaderSt) : Prop :=
  s.windowDefined = true ∧ s.alphaTabGlobal = false ∧
  (s.domScript = false → s.appended = 0) ∧ s.appended ≤ 1 ∧
  (s.loaderA.isSome = true → s.loaderAStatus = .pending) ∧
  (s.loaderB.isSome = true → s.loaderBStatus = .pending)

/-! ## Loader lemmas -/

lemma stepLoadMain_cached (s : LoaderSt) (p : Nat)
    (hw : s.windowDefined = true) (hg : s.alphaTabGlobal = false)
    (hA : s.loaderA = some p) :
    stepLoadMain s = (⟨p, s.loaderAStatus⟩, s) := by
  simp [stepLoadMain, hw, hg, hA]

lemma stepLoadMain_fresh (s : LoaderSt)
    (hw : s.windowDefined = true) (hg : s.alphaTabGlobal = false)
    (hA : s.loaderA = none) :
    (stepLoadMain s).1 = ⟨s.nextPid, .pending⟩ ∧
    (stepLoadMain s).2.loaderA = some s.nextPid := by
  by_cases hd : s.domScript <;> simp [stepLoadMain, hw, hg, hA, hd]

lemma stepEnsure_cached (s : LoaderSt) (p : Nat)
    (hw : s.windowDefined = true) (hg : s.alphaTabGlobal = false)
    (hB : s.loaderB = some p) :
    stepEnsure true s = (⟨p, s.loaderBStatus⟩, s) := by
  simp [stepEnsure, hw, hg, hB]

lemma stepEnsure_fresh (s : LoaderSt)
    (hw : s.windowDefined = true) (hg : s.alphaTabGlobal = false)
    (hB : s.loaderB = none) :
    (stepEnsure true s).1 = ⟨s.nextPid, .pending⟩ ∧
    (stepEnsure true s).2.loaderB = some s.nextPid := by
  by_cases hd : s.domScript <;> simp [stepEnsure, hw, hg, hB, hd]

lemma stepCall_loaderA (k : CallKind) (s : LoaderSt) (p : Nat)
    (hA : s.loaderA = some p) : ((stepCall k s).2).loaderA = some p := by
  cases k with
  | loadMain =>
    simp only [stepCall]
    unfold stepLoadMain
    split_ifs <;> simp [hA]
  | ensure a =>
    simp only [stepCall]
    unfold stepEnsure
    cases hB : s.loaderB <;> split_ifs <;> simp [hA, hB]

lemma stepCall_loaderB (k : CallKind) (s : LoaderSt) (p : Nat)
    (hB : s.loaderB = some p) : ((stepCall k s).2).loaderB = some p := by
  cases k with
  | loadMain =>
    simp only [stepCall]
    unfold stepLoadMain
    cases hA : s.loaderA <;> split_ifs <;> simp [hA, hB]
  | ensure a =>
    simp only [stepCall]
    unfold stepEnsure
    split_ifs <;> simp [hB]

lemma stepEnsure_loaderA (a : Bool) (s : LoaderSt) :
    ((stepEnsure a s).2).loaderA = s.loaderA := by
  unfold stepEnsure
  cases hB : s.loaderB <;> split_ifs <;> simp [hB]

lemma stepCall_inv (k : CallKind) (s : LoaderSt) (h : LInv s) :
    LInv (stepCall k s).2 := by
  obtain ⟨hw, hg, hd0, ha1, hsa, hsb⟩ := h
  cases k with
  | loadMain =>
    show LInv (stepLoadMain s).2
    cases hA : s.loaderA with
    | some p =>
      rw [stepLoadMain_cached s p hw hg hA]
      exact ⟨hw, hg, hd0, ha1, hsa, hsb⟩
    | none =>
      by_cases hd : s.domScript
      · have hstep : (stepLoadMain s).2 =
            { s with loaderA := some s.nextPid, loaderAStatus := .pending,
                     nextPid := s.nextPid + 1 } := by
          simp [stepLoadMain, hw, hg, hA, hd]
        rw [hstep]
        refine ⟨hw, hg, ?_, ha1, ?_, hsb⟩
        · intro hx
          exact hd0 hx
        · intro _
          rfl
      · have hdf : s.domScript = false := by simpa using hd
        have hstep : (stepLoadMain s).2 =
            { s with loaderA := some s.nextPid, loaderAStatus := .pending,
                     nextPid := s.nextPid + 1, domScript := true,
                     appended := s.appended + 1 } := by
          simp [stepLoadMain, hw, hg, hA, hdf]
        rw [hstep]
        refine ⟨hw, hg, ?_, ?_, ?_, hsb⟩
        · intro hx
          simp at hx
        · have h0 := hd0 hdf
          show s.appended + 1 ≤ 1
          omega
        · intro _
          rfl
  | ensure a =>
    show LInv (stepEnsure a s).2
    cases hauto : a with
    | false =>
      have hstep : (stepEnsure false s).2 = { s with nextPid := s.nextPid + 1 } := by
        simp [stepEnsure, hw, hg]
      rw [hstep]
      exact ⟨hw, hg, hd0, ha1, hsa, hsb⟩
    | true =>
      cases hB : s.loaderB with
      | some p =>
        rw [stepEnsure_cached s p hw hg hB]
        exact ⟨hw, hg, hd0, ha1, hsa, hsb⟩
      | none =>
        by_cases hd : s.domScript
        · have hstep : (stepEnsure true s).2 =
              { s with loaderB := some s.nextPid, loaderBStatus := .pending,
                       nextPid := s.nextPid + 1 } := by
            simp [stepEnsure, hw, hg, hB, hd]
          rw [hstep]
          refine ⟨hw, hg, ?_, ha1, hsa, ?_⟩
          · intro hx
            exact hd0 hx
          · intro _
            rfl
        · have hdf : s.domScript = false := by simpa using hd
          have hstep : (stepEnsure true s).2 =
              { s with loaderB := some s.nextPid, loaderBStatus := .pending,
                       nextPid := s.nextPid + 1, domScript := true,
                       appended := s.appended + 1 } := by
            simp [stepEnsure, hw, hg, hB, hdf]
          rw [hstep]
          refine ⟨hw, hg, ?_, ?_, hsa, ?_⟩
          · intro hx
            simp at hx
          · have h0 := hd0 hdf
            show s.appended + 1 ≤ 1
            omega
          · intro _
            rfl

lemma runState_inv : ∀ (t : List CallKind) (s : LoaderSt), LInv s →
    LInv (runState s t) := by
  intro t
  induction t with
  | nil => intro s h; exact h
  | cons c cs ih =>
    intro s h
    exact ih _ (stepCall_inv c s h)

lemma mainCached : ∀ (t : List CallKind) (s : LoaderSt) (p : Nat),
    LInv s → s.loaderA = some p →
    ∀ r ∈ resultsFor .loadMain s t, r = ⟨p, .pending⟩ := by
  intro t
  induction t with
  | nil =>
    intro s p _ _ r hr
    simp [resultsFor] at hr
  | cons c cs ih =>
    intro s p hInv hA r hr
    have htail : ∀ r ∈ resultsFor .loadMain (stepCall c s).2 cs,
        r = ⟨p, .pending⟩ :=
      ih _ p (stepCall_inv c s hInv) (stepCall_loaderA c s p hA)
    by_cases hc : c = CallKind.loadMain
    · subst hc
      rw [resultsFor, if_pos rfl] at hr
      rcases List.mem_cons.mp hr with hhead | hr
      · have hcall : stepCall .loadMain s = (⟨p, s.loaderAStatus⟩, s) :=
          stepLoadMain_cached s p hInv.1 hInv.2.1 hA
        have hst : s.loaderAStatus = .pending :=
          hInv.2.2.2.2.1 (by simp [hA])
        rw [hhead, hcall, hst]
      · exact htail r hr
    · rw [resultsFor, if_neg hc] at hr
      exact htail r hr

lemma mainShare : ∀ (t : List CallKind) (s : LoaderSt), LInv s →
    ∃ q, ∀ r ∈ resultsFor .loadMain s t, r = ⟨q, .pending⟩ := by
  intro t
  induction t with
  | nil =>
    intro s _
    exact ⟨0, by simp [resultsFor]⟩
  | cons c cs ih =>
    intro s hInv
    cases hA : s.loaderA with
    | some p => exact ⟨p, mainCached (c :: cs) s p hInv hA⟩
    | none =>
      by_cases hc : c = CallKind.loadMain
      · subst hc
        refine ⟨s.nextPid, ?_⟩
        intro r hr
        rw [resultsFor, if_pos rfl] at hr
        have hfresh := stepLoadMain_fresh s hInv.1 hInv.2.1 hA
        rcases List.mem_cons.mp hr with hhead | hr
        · rw [hhead]
          exact hfresh.1
        · exact mainCached cs _ s.nextPid
            (stepCall_inv .loadMain s hInv) hfresh.2 r hr
      · have : resultsFor .loadMain s (c :: cs) =
            resultsFor .loadMain (stepCall c s).2 cs := by
          rw [resultsFor, if_neg hc]
        rw [this]
        exact ih _ (stepCall_inv c s hInv)

lemma ensureCached : ∀ (t : List CallKind) (s : LoaderSt) (p : Nat),
    LInv s → s.loaderB = some p →
    ∀ r ∈ resultsFor (.ensure true) s t, r = ⟨p, .pending⟩ := by
  intro t
  induction t with
  | nil =>
    intro s p _ _ r hr
    simp [resultsFor] at hr
  | cons c cs ih =>
    intro s p hInv hB r hr
    have htail : ∀ r ∈ resultsFor (.ensure true) (stepCall c s).2 cs,
        r = ⟨p, .pending⟩ :=
      ih _ p (stepCall_inv c s hInv) (stepCall_loaderB c s p hB)
    by_cases hc : c = CallKind.ensure true
    · subst hc
      rw [resultsFor, if_pos rfl] at hr
      rcases List.mem_cons.mp hr with hhead | hr
      · have hcall : stepCall (.ensure true) s = (⟨p, s.loaderBStatus⟩, s) :=
          stepEnsure_cached s p hInv.1 hInv.2.1 hB
        have hst : s.loaderBStatus = .pending :=
          hInv.2.2.2.2.2 (by simp [hB])
        rw [hhead, hcall, hst]
      · exact htail r hr
    · rw [resultsFor, if_neg hc] at hr
      exact htail r hr

lemma stepCall_loaderB_of_ne (c : CallKind) (s : LoaderSt)
    (hc : c ≠ CallKind.ensure true) :
    ((stepCall c s).2).loaderB = s.loaderB := by
  cases c with
  | loadMain =>
    simp only [stepCall]
    unfold stepLoadMain
    cases hA : s.loaderA <;> split_ifs <;> simp [hA]
  | ensure a =>
    cases a with
    | true => exact absurd rfl hc
    | false =>
      simp only [stepCall]
      unfold stepEnsure
      cases hB : s.loaderB <;> split_ifs <;> simp_all

lemma ensureShare : ∀ (t : List CallKind) (s : LoaderSt), LInv s →
    ∃ q, ∀ r ∈ resultsFor (.ensure true) s t, r = ⟨q, .pending⟩ := by
  intro t
  induction t with
  | nil =>
    intro s _
    exact ⟨0, by simp [resultsFor]⟩
  | cons c cs ih =>
    intro s hInv
    cases hB : s.loaderB with
    | some p => exact ⟨p, ensureCached (c :: cs) s p hInv hB⟩
    | none =>
      by_cases hc : c = CallKind.ensure true
      · subst hc
        refine ⟨s.nextPid, ?_⟩
        intro r hr
        rw [resultsFor, if_pos rfl] at hr
        have hfresh := stepEnsure_fresh s hInv.1 hInv.2.1 hB
        rcases List.mem_cons.mp hr with hhead | hr
        · rw [hhead]
          exact hfresh.1
        · exact ensureCached cs _ s.nextPid
            (stepCall_inv (.ensure true) s hInv) hfresh.2 r hr
      · have : resultsFor (.ensure true) s (c :: cs) =
            resultsFor (.ensure true) (stepCall c s).2 cs := by
          rw [resultsFor, if_neg hc]
        rw [this]
        exact ih _ (stepCall_inv c s hInv)

/-! ## Score coloring lemmas -/

lemma mapExtList {α β : Type _} (l : List α) (f g : α → β)
    (h : ∀ a ∈ l, f a = g a) : l.map f = l.map g := by
  induction l with
  | nil => rfl
  | cons a as ih =>
    simp only [List.map_cons]
    rw [h a (List.mem_cons_self a as), ih (fun x hx => h x (List.mem_cons_of_mem a hx))]

lemma mapSet_fresh (m : List (Nat × String)) (k : Nat) (v : String)
    (h : m.any (fun kv => kv.1 = k) = false) :
    mapSet m k v = m ++ [(k, v)] := by
  simp [mapSet, h]

lemma foldl_mapSet_fresh : ∀ (kvs acc : List (Nat × String)),
    (∀ kv ∈ kvs, ∀ kv2 ∈ acc, kv.1 ≠ kv2.1) →
    ((kvs.map Prod.fst).Nodup) →
    kvs.foldl (fun m kv => mapSet m kv.1 kv.2) acc = acc ++ kvs := by
  intro kvs
  induction kvs with
  | nil =>
    intro acc _ _
    simp
  | cons kv rest ih =>
    intro acc hdisj hnod
    have hfresh : acc.any (fun kv2 => kv2.1 = kv.1) = false := by
      simp only [List.any_eq_false, decide_eq_true_eq]
      intro x hx
      exact Ne.symm (hdisj kv (List.mem_cons_self kv rest) x hx)
    have hnodc : (kv.1 :: rest.map Prod.fst).Nodup := by simpa using hnod
    have hnod2 := List.nodup_cons.mp hnodc
    rw [List.foldl_cons, mapSet_fresh acc kv.1 kv.2 hfresh,
      ih (acc ++ [kv]) ?_ hnod2.2]
    · simp
    · intro kv2 h2 kv3 h3
      rcases List.mem_append.mp h3 with h3 | h3
      · exact hdisj kv2 (List.mem_cons_of_mem kv h2) kv3 h3
      · have hkv3 : kv3 = kv := by simpa using h3
        subst hkv3
        intro hx
        exact hnod2.1 (List.mem_map.mpr ⟨kv2, h2, hx⟩)

lemma styleOfSets_eq (kvs : List (Nat × String))
    (h : (kvs.map Prod.fst).Nodup) : styleOfSets kvs = ⟨kvs⟩ := by
  unfold styleOfSets
  rw [foldl_mapSet_fresh kvs [] (by intro kv _ kv2 h2; cases h2) h]
  simp

lemma resetBeat_darkBeat (m : ATModel) (b : ATBeat) :
    resetBeat (darkBeat m b) = resetBeat b := by
  unfold resetBeat darkBeat
  simp only [List.map_map]
  congr 1

lemma resetVoice_darkVoice (m : ATModel) (v : ATVoice) :
    resetVoice (darkVoice m v) = resetVoice v := by
  unfold resetVoice darkVoice
  simp only [List.map_map]
  congr 1
  exact mapExtList _ _ _ (fun b _ => resetBeat_darkBeat m b)

lemma resetBar_darkBar (m : ATModel) (b : ATBar) :
    resetBar (darkBar m b) = resetBar b := by
  unfold resetBar darkBar
  simp only [List.map_map]
  congr 1
  exact mapExtList _ _ _ (fun v _ => resetVoice_darkVoice m v)

lemma resetStaff_darkStaff (m : ATModel) (st : ATStaff) :
    resetStaff (darkStaff m st) = resetStaff st := by
  unfold resetStaff darkStaff
  simp only [List.map_map]
  congr 1
  exact mapExtList _ _ _ (fun b _ => resetBar_darkBar m b)

lemma resetTrack_darkTrack (m : ATModel) (t : ATTrack) :
    resetTrack (darkTrack m t) = resetTrack t := by
  unfold resetTrack darkTrack
  simp only [List.map_map]
  congr 1
  exact mapExtList _ _ _ (fun st _ => resetStaff_darkStaff m st)

lemma resetScore_darkScore (m : ATModel) (s : ATScore) :
    resetScore (darkScore m s) = resetScore s := by
  unfold resetScore darkScore
  simp only [List.map_map]
  congr 1
  exact mapExtList _ _ _ (fun t _ => resetTrack_darkTrack m t)

lemma resetBeat_resetBeat (b : ATBeat) :
    resetBeat (resetBeat b) = resetBeat b := by
  unfold resetBeat
  simp only [List.map_map]
  congr 1

lemma resetVoice_resetVoice (v : ATVoice) :
    resetVoice (resetVoice v) = resetVoice v := by
  unfold resetVoice
  simp only [List.map_map]
  congr 1
  exact mapExtList _ _ _ (fun b _ => resetBeat_resetBeat b)

lemma resetBar_resetBar (b : ATBar) :
    resetBar (resetBar b) = resetBar b := by
  unfold resetBar
  simp only [List.map_map]
  congr 1
  exact mapExtList _ _ _ (fun v _ => resetVoice_resetVoice v)

lemma resetStaff_resetStaff (st : ATStaff) :
    resetStaff (resetStaff st) = resetStaff st := by
  unfold resetStaff
  simp only [List.map_map]
  congr 1
  exact mapExtList _ _ _ (fun b _ => resetBar_resetBar b)

lemma resetTrack_resetTrack (t : ATTrack) :
    resetTrack (resetTrack t) = resetTrack t := by
  unfold resetTrack
  simp only [List.map_map]
  congr 1
  exact mapExtList _ _ _ (fun st _ => resetStaff_resetStaff st)

lemma resetScore_resetScore (s : ATScore) :
    resetScore (resetScore s) = resetScore s := by
  unfold resetScore
  simp only [List.map_map]
  congr 1
  exact mapExtList _ _ _ (fun t _ => resetTrack_resetTrack t)

lemma beatStylesNone_reset (b : ATBeat) :
    beatStylesNone (resetBeat b) = true := by
  unfold beatStylesNone resetBeat
  simp [List.all_eq_true, noteStylesNone, resetNote]

lemma voiceStylesNone_reset (v : ATVoice) :
    voiceStylesNone (resetVoice v) = true := by
  unfold voiceStylesNone resetVoice
  simp only [List.all_map, Option.isNone_none, Bool.true_and]
  simp only [List.all_eq_true]
  intro b hb
  exact beatStylesNone_reset b

lemma barStylesNone_reset (b : ATBar) :
    barStylesNone (resetBar b) = true := by
  unfold barStylesNone resetBar
  simp only [List.all_map, Option.isNone_none, Bool.true_and]
  simp only [List.all_eq_true]
  intro v hv
  exact voiceStylesNone_reset v

lemma staffStylesNone_reset (st : ATStaff) :
    staffStylesNone (resetStaff st) = true := by
  unfold staffStylesNone resetStaff
  simp only [List.all_map]
  simp only [List.all_eq_true]
  intro b hb
  exact barStylesNone_reset b

lemma trackStylesNone_reset (t : ATTrack) :
    trackStylesNone (resetTrack t) = true := by
  unfold trackStylesNone resetTrack
  simp only [List.all_map, Option.isNone_none, Bool.true_and]
  simp only [List.all_eq_true]
  intro st hst
  exact staffStylesNone_reset st

lemma scoreStylesNone_reset (s : ATScore) :
    scoreStylesNone (resetScore s) = true := by
  unfold scoreStylesNone resetScore
  simp only [List.all_map, Option.isNone_none, Bool.true_and]
  simp only [List.all_eq_true]
  intro t ht
  exact trackStylesNone_reset t

lemma scoreDark_darkScore (m : ATModel) (s : ATScore)
    (h : ModelSeparated m) : ScoreDark m (darkScore m s) := by
  obtain ⟨h1, h2, h3, h4, h5, h6⟩ := h
  refine ⟨by simp [darkScore, styleOfSets_eq _ h1], ?_⟩
  intro t ht
  simp only [darkScore, List.mem_map] at ht
  obtain ⟨t0, _, rfl⟩ := ht
  refine ⟨by simp [darkTrack, styleOfSets_eq _ h2], ?_⟩
  intro st hst
  simp only [darkTrack, List.mem_map] at hst
  obtain ⟨st0, _, rfl⟩ := hst
  intro b hb
  simp only [darkStaff, List.mem_map] at hb
  obtain ⟨b0, _, rfl⟩ := hb
  refine ⟨by simp [darkBar, styleOfSets_eq _ h3], ?_⟩
  intro v hv
  simp only [darkBar, List.mem_map] at hv
  obtain ⟨v0, _, rfl⟩ := hv
  refine ⟨by simp [darkVoice, styleOfSets_eq _ h4], ?_⟩
  intro bt hbt
  simp only [darkVoice, List.mem_map] at hbt
  obtain ⟨bt0, _, rfl⟩ := hbt
  refine ⟨by simp [darkBeat, styleOfSets_eq _ h5], ?_⟩
  intro n hn
  simp only [darkBeat, List.mem_map] at hn
  obtain ⟨n0, _, rfl⟩ := hn
  simp [NoteDark, darkNote, styleOfSets_eq _ h6]

lemma applyTracksMeta (m : ATModel) (s : ATScore) (d : Bool) :
    (applyScoreColors m s d).tracks.map (fun t => (t.index, t.name)) =
      s.tracks.map (fun t => (t.index, t.name)) := by
  cases d with
  | false =>
    simp only [applyScoreColors, Bool.false_eq_true, if_false, resetScore,
      List.map_map]
    exact mapExtList _ _ _ (fun t _ => rfl)
  | true =>
    simp only [applyScoreColors, if_true, darkScore, List.map_map]
    exact mapExtList _ _ _ (fun t _ => rfl)

/-! ## Track click and duration lemmas -/

lemma filter_ne_nonempty (prev : List Nat) (i : Nat) (hnd : prev.Nodup)
    (hlen : ¬ prev.length ≤ 1) :
    prev.filter (fun x => x ≠ i) ≠ [] := by
  match prev with
  | [] => simp at hlen
  | [a] => simp at hlen
  | a :: b :: rest =>
    have hab : a ≠ b := by
      have := List.nodup_cons.mp hnd
      exact fun hx => this.1 (hx ▸ List.mem_cons_self b rest)
    by_cases hai : a = i
    · have hbi : b ≠ i := fun hx => hab (by rw [hai, hx])
      have hmem : b ∈ (a :: b :: rest).filter (fun x => x ≠ i) := by
        simp [List.mem_filter, hbi]
      exact List.ne_nil_of_mem hmem
    · have hmem : a ∈ (a :: b :: rest).filter (fun x => x ≠ i) := by
        simp [List.mem_filter, hai]
      exact List.ne_nil_of_mem hmem

lemma padStart2_length (s : String) : 2 ≤ (padStart2 s).length := by
  unfold padStart2
  split_ifs with h
  · have hmk : (String.mk (List.replicate (2 - s.length) '0')).length
        = 2 - s.length := by
      show (List.replicate (2 - s.length) '0').length = 2 - s.length
      exact List.length_replicate _ _
    rw [String.length_append, hmk]
    omega
  · omega

lemma floor_div60 (q : ℚ) : ⌊q / 1000 / 60⌋ = ⌊q / 60000⌋ := by
  rw [div_div]
  norm_num

lemma sec_lower (q : ℚ) : 0 ≤ ⌊q / 1000 - (⌊q / 60000⌋ : ℚ) * 60⌋ := by
  have h1 : ((⌊q / 1000 / 60⌋ : ℚ)) ≤ q / 1000 / 60 := Int.floor_le _
  rw [floor_div60] at h1
  rw [Int.floor_nonneg]
  nlinarith

lemma sec_upper (q : ℚ) : ⌊q / 1000 - (⌊q / 60000⌋ : ℚ) * 60⌋ ≤ 59 := by
  have h1 : q / 1000 / 60 < (⌊q / 1000 / 60⌋ : ℚ) + 1 := Int.lt_floor_add_one _
  rw [floor_div60] at h1
  have h2 : ⌊q / 1000 - (⌊q / 60000⌋ : ℚ) * 60⌋ < 60 := by
    rw [Int.floor_lt]
    push_cast
    nlinarith
  omega

lemma jsRem_eq (x : ℚ) (hx : 0 ≤ x) :
    jsRem x 60 = x - (⌊x / 60⌋ : ℚ) * 60 := by
  unfold jsRem ratTrunc
  have h60 : (0:ℚ) ≤ x / 60 := by positivity
  rw [if_pos h60]
  ring

/-! ## Claim theorems -/

/-- C1, counterexample: two `ensureRuntime(false)` calls in a browser
without the runtime return two distinct freshly rejected promises, not
one shared pending promise; and a `loadAlphaTabRuntime` call followed by
an `ensureRuntime(true)` call return distinct promises, because each
function caches its own module-level promise. -/
theorem C1_counterexample :
    resultsFor (.ensure false) cleanLoaderSt [.ensure false, .ensure false] =
      [⟨0, .rejected⟩, ⟨1, .rejected⟩] ∧
    (⟨0, PStatus.rejected⟩ : PResult) ≠ ⟨1, PStatus.rejected⟩ ∧
    resultsFor .loadMain cleanLoaderSt [.loadMain, .ensure true] =
      [⟨0, .pending⟩] ∧
    resultsFor (.ensure true) cleanLoaderSt [.loadMain, .ensure true] =
      [⟨1, .pending⟩] := by
  decide

/-- C1 (amended): over any sequence of calls to `loadAlphaTabRuntime`
and `ensureRuntime` in a browser where `window.alphaTab` is never
defined, at most one script element is ever appended to the document
head, every `loadAlphaTabRuntime` call returns the one shared pending
promise of that function, and every `ensureRuntime(true)` call returns
the one shared pending promise of that function. -/
theorem C1_loader_coalescing (init : LoaderSt) (t : List CallKind)
    (hw : init.windowDefined = true) (hg : init.alphaTabGlobal = false)
    (ha : init.appended = 0) (hA : init.loaderA = none)
    (hB : init.loaderB = none) :
    (runState init t).appended ≤ 1 ∧
    (∃ q, ∀ r ∈ resultsFor .loadMain init t, r = ⟨q, .pending⟩) ∧
    (∃ q, ∀ r ∈ resultsFor (.ensure true) init t, r = ⟨q, .pending⟩) := by
  have hInv : LInv init :=
    ⟨hw, hg, fun _ => ha, by omega, by simp [hA], by simp [hB]⟩
  exact ⟨(runState_inv t init hInv).2.2.2.1, mainShare t init hInv,
    ensureShare t init hInv⟩

/-- C1, witness: the amended statement evaluated on a concrete
interleaving of the two loader functions. -/
theorem C1_loader_coalescing_witness :
    (runState cleanLoaderSt
        [.loadMain, .ensure true, .loadMain, .ensure true]).appended ≤ 1 ∧
    (∃ q, ∀ r ∈ resultsFor .loadMain cleanLoaderSt
        [.loadMain, .ensure true, .loadMain, .ensure true],
        r = ⟨q, .pending⟩) ∧
    (∃ q, ∀ r ∈ resultsFor (.ensure true) cleanLoaderSt
        [.loadMain, .ensure true, .loadMain, .ensure true],
        r = ⟨q, .pending⟩) :=
  C1_loader_coalescing cleanLoaderSt _ rfl rfl rfl rfl rfl

/-- C2: a script-load rejection, a missing runtime global and a source
load rejection each leave the component in the error status with the
error message rendered in the error box; and once the cached loader
promise is rejected, a further `loadAlphaTabRuntime` call returns the
same cached rejected promise and leaves the state (hence the document
head) unchanged. -/
theorem C2_error_rendering :
    (∀ (present : Bool) (srcLoad : Except String Unit),
      (setupEffect (Except.error scriptFailMsg) present srcLoad).status =
        .errorState ∧
      renderErrorBox (setupEffect (Except.error scriptFailMsg) present
        srcLoad) = some scriptFailMsg) ∧
    (∀ srcLoad : Except String Unit,
      (setupEffect (Except.ok ()) false srcLoad).status = .errorState ∧
      renderErrorBox (setupEffect (Except.ok ()) false srcLoad) =
        some runtimeMissingMsg) ∧
    (∀ msg : String, msg ≠ "" →
      (setupEffect (Except.ok ()) true (Except.error msg)).status =
        .errorState ∧
      renderErrorBox (setupEffect (Except.ok ()) true (Except.error msg)) =
        some msg) ∧
    (∀ (s : LoaderSt) (p : Nat), s.windowDefined = true →
      s.alphaTabGlobal = false → s.loaderA = some p →
      s.loaderAStatus = .rejected →
      stepLoadMain s = (⟨p, .rejected⟩, s)) := by
  refine ⟨?_, ?_, ?_, ?_⟩
  · intro present srcLoad
    exact ⟨rfl, rfl⟩
  · intro srcLoad
    exact ⟨rfl, rfl⟩
  · intro msg hmsg
    refine ⟨rfl, ?_⟩
    simp [renderErrorBox, setupEffect, hmsg]
  · intro s p hw hg hA hst
    rw [stepLoadMain_cached s p hw hg hA, hst]

/-- C2, witness: the source-load failure branch at a concrete message
and the no-retry branch at a concrete rejected loader state. -/
theorem C2_error_rendering_witness :
    ("boom" : String) ≠ "" ∧
    renderErrorBox (setupEffect (Except.ok ()) true (Except.error "boom")) =
      some "boom" ∧
    stepLoadMain { cleanLoaderSt with
        loaderA := some 5
        loaderAStatus := PStatus.rejected } =
      (⟨5, .rejected⟩, { cleanLoaderSt with
        loaderA := some 5
        loaderAStatus := PStatus.rejected }) :=
  ⟨by decide,
   (C2_error_rendering.2.2.1 "boom" (by decide)).2,
   C2_error_rendering.2.2.2
     { cleanLoaderSt with
       loaderA := some 5
       loaderAStatus := PStatus.rejected } 5 rfl rfl rfl rfl⟩

/-- C3, counterexample: in the main player, with active tracks `{0, 1}`,
clicking the track of index 1 leaves index 1 active (and drops index 0),
while the claim demands that the present index 1 be removed. -/
theorem C3_counterexample :
    1 ∈ (handleTrackClickMain true [0, 1] exTrackB).active ∧
    ¬ 0 ∈ (handleTrackClickMain true [0, 1] exTrackB).active := by
  decide

/-- C3 (amended): in the main player a click renders exactly the clicked
track and replaces the active set by the singleton of its index; in the
dialog variants a click toggles the clicked index - removed when
present, appended when absent - except that deselecting the sole active
track leaves the set unchanged. -/
theorem C3_track_click :
    (∀ (prev : List Nat) (t : ATTrack),
      handleTrackClickMain true prev t =
        { active := [t.index], renders := [[t]] }) ∧
    (∀ (avail scoreTracks : List ATTrack) (prev : List Nat) (i : Nat),
      prev.contains i = true → prev.length ≤ 1 →
      (handleTrackClickDialog avail scoreTracks prev i).active = prev) ∧
    (∀ (avail scoreTracks : List ATTrack) (prev : List Nat) (i j : Nat),
      ¬(prev.contains i = true ∧ prev.length ≤ 1) →
      (j ∈ (handleTrackClickDialog avail scoreTracks prev i).active ↔
        (if prev.contains i = true then j ∈ prev ∧ j ≠ i
         else j ∈ prev ∨ j = i))) := by
  refine ⟨?_, ?_, ?_⟩
  · intro prev t
    rfl
  · intro avail scoreTracks prev i h1 h2
    have h1m : i ∈ prev := by simpa using h1
    simp [handleTrackClickDialog, h1m, h2]
  · intro avail scoreTracks prev i j hneg
    by_cases hc : i ∈ prev
    · have hlen : ¬ prev.length ≤ 1 :=
        fun hx => hneg ⟨by simpa using hc, hx⟩
      simp [handleTrackClickDialog, hc, hlen, List.mem_filter]
    · simp [handleTrackClickDialog, hc]

/-- C3, witness: the amended statement evaluated on concrete clicks. -/
theorem C3_track_click_witness :
    (handleTrackClickDialog [] [] [1] 1).active = [1] ∧
    ((2 : Nat) ∈ (handleTrackClickDialog [] [] [0, 1] 2).active ↔
      (if ([0, 1] : List Nat).contains 2 = true then 2 ∈ [0, 1] ∧ 2 ≠ 2
       else 2 ∈ [0, 1] ∨ 2 = 2)) :=
  ⟨C3_track_click.2.1 [] [] [1] 1 (by decide) (by decide),
   C3_track_click.2.2 [] [] [0, 1] 2 2 (by decide)⟩

/-- C4: with an api instance, `toggleLoop` sets the library flag and the
state flag to the negation of the current state flag, so both agree
afterwards, and a second `toggleLoop` restores the original state
value in both. -/
theorem C4_toggle_loop (s : LoopState) (h : s.hasApi = true) :
    (toggleLoop s).apiLooping = !s.uiLooping ∧
    (toggleLoop s).uiLooping = !s.uiLooping ∧
    (toggleLoop s).uiLooping = (toggleLoop s).apiLooping ∧
    (toggleLoop (toggleLoop s)).uiLooping = s.uiLooping ∧
    (toggleLoop (toggleLoop s)).apiLooping = s.uiLooping := by
  simp [toggleLoop, h]

/-- C4, witness: the double toggle evaluated on a concrete state. -/
theorem C4_toggle_loop_witness :
    (toggleLoop (toggleLoop
      { hasApi := true, apiLooping := true, uiLooping := false })).uiLooping
      = false :=
  (C4_toggle_loop
    { hasApi := true, apiLooping := true, uiLooping := false } rfl).2.2.2.1

/-- C5: with an api instance, a url descriptor is passed to `api.load`
as is, a file descriptor is first read into a buffer which is then
passed to `api.load`, an arrayBuffer descriptor is passed to `api.load`
as is, and an alphaTex descriptor goes to `api.loadAlphaTex` when that
method exists and to `api.load` otherwise. -/
theorem C5_load_source :
    (∀ (hTex : Bool) (v : String),
      loadSourceDescriptor true hTex (.url v) = .ok [.loadStr v]) ∧
    (∀ (hTex : Bool) (f : FileM) (buf : List Nat),
      f.readResult = .ok buf →
      loadSourceDescriptor true hTex (.file f) = .ok [.loadBuf buf]) ∧
    (∀ (hTex : Bool) (b : List Nat),
      loadSourceDescriptor true hTex (.arrayBuffer b) = .ok [.loadBuf b]) ∧
    (∀ v : String,
      loadSourceDescriptor true true (.alphaTex v) = .ok [.loadTex v]) ∧
    (∀ v : String,
      loadSourceDescriptor true false (.alphaTex v) = .ok [.loadStr v]) := by
  refine ⟨?_, ?_, ?_, ?_, ?_⟩ <;> intros <;> simp_all [loadSourceDescriptor]

/-- C5, witness: a concrete file whose read succeeds is loaded as its
buffer. -/
theorem C5_load_source_witness :
    (FileM.mk (Except.ok [7, 9])).readResult = Except.ok [7, 9] ∧
    loadSourceDescriptor true true (.file (FileM.mk (Except.ok [7, 9]))) =
      .ok [.loadBuf [7, 9]] :=
  ⟨rfl, C5_load_source.2.1 true (FileM.mk (Except.ok [7, 9])) [7, 9] rfl⟩

/-- C6: `applyScoreColors` with dark mode off clears the style of the
score and of every reachable track, bar, voice, beat and note; with dark
mode on it gives each such node a freshly built style whose color map is
exactly the fixed per-level list of sub-elements colored with the
primary or secondary dark color (for enums with distinct codes); and in
both modes the structure - the track list with its indices and names and
the nesting below it - is unchanged. -/
theorem C6_apply_score_colors :
    (∀ (m : ATModel) (s : ATScore),
      scoreStylesNone (applyScoreColors m s false) = true) ∧
    (∀ (m : ATModel) (s : ATScore) (d : Bool),
      resetScore (applyScoreColors m s d) = resetScore s) ∧
    (∀ (m : ATModel) (s : ATScore) (d : Bool),
      (applyScoreColors m s d).tracks.map (fun t => (t.index, t.name)) =
        s.tracks.map (fun t => (t.index, t.name))) ∧
    (∀ (m : ATModel) (s : ATScore), ModelSeparated m →
      ScoreDark m (applyScoreColors m s true)) := by
  refine ⟨?_, ?_, ?_, ?_⟩
  · intro m s
    exact scoreStylesNone_reset s
  · intro m s d
    cases d
    · exact resetScore_resetScore s
    · exact resetScore_darkScore m s
  · exact applyTracksMeta
  · intro m s h
    exact scoreDark_darkScore m s h

/-- C6, witness: the dark-mode property evaluated on a concrete model
with distinct codes and a one-of-everything score. -/
theorem C6_apply_score_colors_witness :
    ModelSeparated stdATModel ∧
    ScoreDark stdATModel (applyScoreColors stdATModel exScore true) :=
  ⟨by
    unfold ModelSeparated
    decide,
   C6_apply_score_colors.2.2.2 stdATModel exScore (by
    unfold ModelSeparated
    decide)⟩

/-- C7: when the setup effect produced an api instance, the unmount
cleanup emits exactly one `destroy` call on that instance and nulls the
api and score refs, in the main player and in the dialog variants. -/
theorem C7_unmount_cleanup (s : MountState) (a : Nat)
    (h : s.api = some a) :
    (effectCleanupMain s).2 = [.destroy a] ∧
    (effectCleanupMain s).1.api = none ∧
    (effectCleanupMain s).1.score = none ∧
    (effectCleanupDialog s).2 = [.destroy a] ∧
    (effectCleanupDialog s).1.api = none ∧
    (effectCleanupDialog s).1.score = none := by
  simp [effectCleanupMain, effectCleanupDialog, h]

/-- C7, witness: the cleanup evaluated on a concrete mounted state. -/
theorem C7_unmount_cleanup_witness :
    (effectCleanupMain
      { api := some 3
        score := some 4
        runtimeReady := true
        isPlayerReady := true
        activeTracks := [0] }).2 = [.destroy 3] ∧
    (effectCleanupDialog
      { api := some 3
        score := some 4
        runtimeReady := true
        isPlayerReady := true
        activeTracks := [0] }).1.api = none :=
  ⟨(C7_unmount_cleanup _ 3 rfl).1,
   (C7_unmount_cleanup
      { api := some 3
        score := some 4
        runtimeReady := true
        isPlayerReady := true
        activeTracks := [0] } 3 rfl).2.2.2.2.1⟩

/-- C8: in the dialog variants, deselecting the sole active track leaves
the active set unchanged and emits no `renderTracks` call; every other
click removes or adds exactly the clicked index; and on a duplicate-free
nonempty active set the result is never empty. -/
theorem C8_track_set_invariant :
    ∀ (avail scoreTracks : List ATTrack) (prev : List Nat) (i : Nat),
      (prev.contains i = true → prev.length ≤ 1 →
        handleTrackClickDialog avail scoreTracks prev i =
          { active := prev, renders := [] }) ∧
      (¬(prev.contains i = true ∧ prev.length ≤ 1) →
        ∀ j, j ∈ (handleTrackClickDialog avail scoreTracks prev i).active ↔
          (if prev.contains i = true then j ∈ prev ∧ j ≠ i
           else j ∈ prev ∨ j = i)) ∧
      (prev.Nodup → prev ≠ [] →
        (handleTrackClickDialog avail scoreTracks prev i).active ≠ []) := by
  intro avail scoreTracks prev i
  refine ⟨?_, ?_, ?_⟩
  · intro h1 h2
    have h1m : i ∈ prev := by simpa using h1
    simp [handleTrackClickDialog, h1m, h2]
  · intro hneg j
    by_cases hc : i ∈ prev
    · have hlen : ¬ prev.length ≤ 1 :=
        fun hx => hneg ⟨by simpa using hc, hx⟩
      simp [handleTrackClickDialog, hc, hlen, List.mem_filter]
    · simp [handleTrackClickDialog, hc]
  · intro hnd hne
    by_cases hc : i ∈ prev
    · by_cases hlen : prev.length ≤ 1
      · simpa [handleTrackClickDialog, hc, hlen] using hne
      · have := filter_ne_nonempty prev i hnd hlen
        simpa [handleTrackClickDialog, hc, hlen] using this
    · simp [handleTrackClickDialog, hc]

/-- C8, witness: the guard branch and the toggle branch on concrete
sets. -/
theorem C8_track_set_invariant_witness :
    handleTrackClickDialog [] [] [1] 1 =
      { active := [1], renders := [] } ∧
    (handleTrackClickDialog [] [] [0, 1] 0).active ≠ [] :=
  ⟨(C8_track_set_invariant [] [] [1] 1).1 (by decide) (by decide),
   (C8_track_set_invariant [] [] [0, 1] 0).2.2 (by decide) (by decide)⟩

/-- C9: both `formatDuration` variants map every non-finite number to
"00:00", clamp every negative input to "00:00", and on every finite
non-negative millisecond input agree and produce the whole minutes of
the input and a seconds component between 0 and 59, each component
zero-padded to at least two characters. -/
theorem C9_format_duration :
    (formatDuration none = "00:00" ∧ formatDurationDialog none = "00:00") ∧
    (∀ q : ℚ, q < 0 → formatDuration (some q) = "00:00" ∧
      formatDurationDialog (some q) = "00:00") ∧
    (∀ q : ℚ, 0 ≤ q →
      formatDuration (some q) =
        padStart2 (toString (⌊q / 60000⌋ : ℤ)) ++ ":" ++
          padStart2 (toString
            (⌊q / 1000 - (⌊q / 60000⌋ : ℚ) * 60⌋ : ℤ)) ∧
      formatDurationDialog (some q) = formatDuration (some q) ∧
      0 ≤ ⌊q / 1000 - (⌊q / 60000⌋ : ℚ) * 60⌋ ∧
      ⌊q / 1000 - (⌊q / 60000⌋ : ℚ) * 60⌋ ≤ 59 ∧
      2 ≤ (padStart2 (toString (⌊q / 60000⌋ : ℤ))).length ∧
      2 ≤ (padStart2 (toString
        (⌊q / 1000 - (⌊q / 60000⌋ : ℚ) * 60⌋ : ℤ))).length) := by
  refine ⟨⟨rfl, rfl⟩, ?_, ?_⟩
  · intro q hq
    have hle : q / 1000 ≤ 0 := by
      rw [div_nonpos_iff]
      right
      exact ⟨hq.le, by norm_num⟩
    have hmax : max (q / 1000) 0 = 0 := max_eq_right hle
    constructor
    · simp only [formatDuration, hmax]
      norm_num
      decide
    · simp only [formatDurationDialog, hmax, jsRem_eq (0 : ℚ) le_rfl]
      norm_num
      decide
  · intro q hq
    have hpos : (0 : ℚ) ≤ q / 1000 := by positivity
    have hmax : max (q / 1000) 0 = q / 1000 := max_eq_left hpos
    refine ⟨?_, ?_, sec_lower q, sec_upper q, padStart2_length _,
      padStart2_length _⟩
    · simp only [formatDuration, hmax, floor_div60]
    · simp only [formatDurationDialog, formatDuration, hmax,
        jsRem_eq (q / 1000) hpos, floor_div60]

/-- C9, witness: 125000 milliseconds is two whole minutes and five
seconds. -/
theorem C9_format_duration_witness :
    (0 : ℚ) ≤ 125000 ∧
    formatDuration (some 125000) =
      padStart2 (toString (⌊(125000 : ℚ) / 60000⌋ : ℤ)) ++ ":" ++
        padStart2 (toString
          (⌊(125000 : ℚ) / 1000 - (⌊(125000 : ℚ) / 60000⌋ : ℚ) * 60⌋ : ℤ)) ∧
    formatDurationDialog (some 125000) = formatDuration (some 125000) :=
  ⟨by norm_num,
   (C9_format_duration.2.2 125000 (by norm_num)).1,
   (C9_format_duration.2.2 125000 (by norm_num)).2.1⟩

/-- C10: each string classifier totalises to a url or alphaTex
descriptor (never a file or buffer, never a rejection): an `http(s)`
head gives a url with the trimmed text; the simple variant turns any
directive match into alphaTex; the app variant strips the `AT:` prefix
into alphaTex and turns a multi-line directive match into alphaTex; and
when no rule of the respective function matches, both fall back to a
url with the trimmed text. -/
theorem C10_detect_string_source (raw : String) :
    (((∃ v, detectStringSourceSimple raw = SourceDesc.url v) ∨
      (∃ v, detectStringSourceSimple raw = SourceDesc.alphaTex v)) ∧
     ((∃ v, detectStringSourceApp raw = SourceDesc.url v) ∨
      (∃ v, detectStringSourceApp raw = SourceDesc.alphaTex v))) ∧
    (httpTest (jsTrim raw).data = true →
      detectStringSourceSimple raw = .url (jsTrim raw) ∧
      detectStringSourceApp raw = .url (jsTrim raw)) ∧
    (httpTest (jsTrim raw).data = false →
      directiveTest simpleKws (jsTrim raw).data = true →
      detectStringSourceSimple raw = .alphaTex (jsTrim raw)) ∧
    (httpTest (jsTrim raw).data = false →
      headMatchCS "AT:".data (jsTrim raw).data = true →
      detectStringSourceApp raw =
        .alphaTex (jsTrim (String.mk ((jsTrim raw).data.drop 3)))) ∧
    (httpTest (jsTrim raw).data = false →
      headMatchCS "AT:".data (jsTrim raw).data = false →
      extTest (jsTrim raw).data = false →
      (jsTrim raw).data.contains '\n' = true →
      directiveTest appKws (jsTrim raw).data = true →
      detectStringSourceApp raw = .alphaTex (jsTrim raw)) ∧
    (httpTest (jsTrim raw).data = false →
      directiveTest simpleKws (jsTrim raw).data = false →
      (jsTrim raw).data.contains '\n' = false →
      detectStringSourceSimple raw = .url (jsTrim raw)) ∧
    (httpTest (jsTrim raw).data = false →
      headMatchCS "AT:".data (jsTrim raw).data = false →
      extTest (jsTrim raw).data = false →
      ((jsTrim raw).data.contains '\n' = false ∨
        directiveTest appKws (jsTrim raw).data = false) →
      keywordHere appStartKws (jsTrim raw).data = false →
      detectStringSourceApp raw = .url (jsTrim raw)) := by
  refine ⟨⟨?_, ?_⟩, ?_, ?_, ?_, ?_, ?_, ?_⟩
  · simp only [detectStringSourceSimple]
    split_ifs <;> first
      | exact Or.inl ⟨_, rfl⟩
      | exact Or.inr ⟨_, rfl⟩
  · simp only [detectStringSourceApp]
    split_ifs <;> first
      | exact Or.inl ⟨_, rfl⟩
      | exact Or.inr ⟨_, rfl⟩
  · intro h
    constructor <;> simp [detectStringSourceSimple, detectStringSourceApp, h]
  · intro h1 h2
    simp [detectStringSourceSimple, h1, h2]
  · intro h1 h2
    simp [detectStringSourceApp, h1, h2]
  · intro h1 h2 h3 h4 h5
    have h4m : '\n' ∈ (jsTrim raw).data := by simpa using h4
    simp [detectStringSourceApp, h1, h2, h3, h4m, h5]
  · intro h1 h2 h3
    have h3m : '\n' ∉ (jsTrim raw).data := by simpa using h3
    simp [detectStringSourceSimple, h1, h2, h3m]
  · intro h1 h2 h3 h45 h6
    rcases h45 with h | h
    · have hm : '\n' ∉ (jsTrim raw).data := by simpa using h
      simp [detectStringSourceApp, h1, h2, h3, hm, h6]
    · simp [detectStringSourceApp, h1, h2, h3, h, h6]

/-- C10, witness: the four classification rules evaluated on concrete
strings. -/
theorem C10_detect_string_source_witness :
    detectStringSourceSimple "  HTTPS://example.com/x.gp " =
      .url (jsTrim "  HTTPS://example.com/x.gp ") ∧
    detectStringSourceApp "AT: \\title X" =
      .alphaTex (jsTrim (String.mk ((jsTrim "AT: \\title X").data.drop 3))) ∧
    detectStringSourceSimple "\\tempo 120" =
      .alphaTex (jsTrim "\\tempo 120") ∧
    detectStringSourceApp "canon.gp" = .url (jsTrim "canon.gp") :=
  ⟨((C10_detect_string_source "  HTTPS://example.com/x.gp ").2.1
      (by decide)).1,
   (C10_detect_string_source "AT: \\title X").2.2.2.1
      (by decide) (by decide),
   (C10_detect_string_source "\\tempo 120").2.2.1 (by decide) (by decide),
   (C10_detect_string_source "canon.gp").2.2.2.2.2.2
      (by decide) (by decide) (by decide) (Or.inl (by decide)) (by decide)⟩
